import Mathlib

/-!
Verification development for the printipi motion-control firmware sources:
`src/iodrivers/iopin.cpp`, `code/proof-of-concept/DMA/dma-gpio.c`, and
`code/firmware/src/drivers/machines/kosselpi.h`.

Each C definition is shallowly embedded: pure computations become Lean
functions, register and pin effects become explicit state passing, and
32-bit machine integers become `Nat` with explicit bounds where overflow
or complement matters.
-/

/-! ## DMA proof-of-concept (`dma-gpio.c`) -/

/-- `#define GPIO_BASE_BUS 0x7E200000` from dma-gpio.c. -/
def GPIO_BASE_BUS : Nat := 0x7E200000

/-- `#define GPSET0 0x0000001C` from dma-gpio.c. -/
def GPSET0 : Nat := 0x1C

/-- `#define DMA_CB_TI_DEST_INC (1<<4)` from dma-gpio.c. -/
def DMA_CB_TI_DEST_INC : Nat := 1 <<< 4

/-- `#define DMA_CB_TI_DEST_DREQ (1<<6)` from dma-gpio.c. -/
def DMA_CB_TI_DEST_DREQ : Nat := 1 <<< 6

/-- `#define DMA_CB_TI_SRC_INC (1<<8)` from dma-gpio.c. -/
def DMA_CB_TI_SRC_INC : Nat := 1 <<< 8

/-- `#define DMA_CB_TI_PERMAP_PWM (5<<16)` from dma-gpio.c. -/
def DMA_CB_TI_PERMAP_PWM : Nat := 5 <<< 16

/-- `#define DMA_CB_TI_NO_WIDE_BURSTS (1<<26)` from dma-gpio.c. -/
def DMA_CB_TI_NO_WIDE_BURSTS : Nat := 1 <<< 26

/-- The fields of `struct DmaControlBlock` that `main` writes
(the two reserved words are omitted; they are never assigned). -/
structure DmaControlBlock where
  TI : Nat
  SOURCE_AD : Nat
  DEST_AD : Nat
  TXFR_LEN : Nat
  STRIDE : Nat
  NEXTCONBK : Nat
deriving DecidableEq

/-- The control-block configuration written by `main` in dma-gpio.c
(lines 273-281): `cb1->TI = DMA_CB_TI_SRC_INC | DMA_CB_TI_DEST_INC |
DMA_CB_TI_NO_WIDE_BURSTS`, source the allocated page, destination
`GPIO_BASE_BUS + GPSET0`, 24 transferred bytes, no stride, and
`cb1->NEXTCONBK = 0` (the loop-back assignment is commented out). -/
def cb1Setup (physSrcPage : Nat) : DmaControlBlock :=
  { TI := DMA_CB_TI_SRC_INC ||| DMA_CB_TI_DEST_INC ||| DMA_CB_TI_NO_WIDE_BURSTS
    SOURCE_AD := physSrcPage
    DEST_AD := GPIO_BASE_BUS + GPSET0
    TXFR_LEN := 24
    STRIDE := 0
    NEXTCONBK := 0 }

/-- All 32 bits set: the value of `~0` on a `uint32_t`. -/
def UINT32_MASK : Nat := 2 ^ 32 - 1

/-- `writeBitmasked(dest, mask, value)` from dma-gpio.c: the register is
overwritten with `(cur & (~mask)) | (value & mask)`; the duplicated store
in the C code writes the same value twice, so the resulting register
state is this single value. `~mask` on `uint32_t` is `mask XOR 0xFFFFFFFF`. -/
def writeBitmasked (cur mask value : Nat) : Nat :=
  (cur &&& (UINT32_MASK ^^^ mask)) ||| (value &&& mask)

/-- Outcomes of running the dma-gpio.c process: normal termination with an
exit status, or no termination (the `while (CS & ACTIVE)` spin). -/
inductive ProcResult where
  | exited (code : Nat)
  | hangs
deriving DecidableEq

/-- Which of the fallible external operations performed by `main` in
dma-gpio.c succeed.  `pagemapReadOk` records whether the `read` from
`/proc/self/pagemap` inside `makeVirtPhysPage` succeeds: `main` never
inspects that result. `dmaCompletes` records whether the started DMA
transfer ever clears `CS.ACTIVE`. -/
structure SyscallEnv where
  openDevMemOk : Bool
  mapGpioOk : Bool
  mapDmaOk : Bool
  mapTimerOk : Bool
  pagemapReadOk : Bool
  dmaCompletes : Bool

/-- The control flow of `main` in dma-gpio.c as a function of which
external operations succeed.  `open("/dev/mem")` failing hits
`exit(1)`; each of the three `mapPeripheral` calls hits `exit(1)` on
`MAP_FAILED`; the pagemap read result is never checked; after starting
DMA, `main` spins until `CS.ACTIVE` clears and then returns 0. -/
def dmaMain (e : SyscallEnv) : ProcResult :=
  if !e.openDevMemOk then .exited 1
  else if !e.mapGpioOk then .exited 1
  else if !e.mapDmaOk then .exited 1
  else if !e.mapTimerOk then .exited 1
  else if !e.dmaCompletes then .hangs
  else .exited 0

/-! ## I/O pin abstraction (`iopin.cpp`) -/

/-- `IoLow` of the `IoLevel` type; levels are embedded as `Bool` with the
C negation `!lev` becoming `Bool.not`. -/
def IoLow : Bool := false

/-- `IoHigh` of the `IoLevel` type. -/
def IoHigh : Bool := true

/-- The `DefaultIoState` enumeration.  `IO_DEFAULT_LOW`, `IO_DEFAULT_HIGH`
and `IO_DEFAULT_HIGH_IMPEDANCE` are the three values tested by
`IoPin::setToDefault`; the remaining value is the fall-through case of
that function, named from the spec's default_state set low, high,
high-impedance, none (the declaring header `iopin.h` is not among the
sources). -/
inductive DefaultIoState where
  | ioDefaultNone
  | ioDefaultLow
  | ioDefaultHigh
  | ioDefaultHighImpedance
deriving DecidableEq

/-- Hardware mode of one line: digital input or digital output. -/
inductive PinMode where
  | input
  | output
deriving DecidableEq

/-- Observable state of one hardware line: its mode and output level. -/
structure LineState where
  mode : PinMode
  level : Bool
deriving DecidableEq

/-- State of every hardware line, indexed by the line's integer id. -/
abbrev Hardware := Nat → LineState

/-- Modelled from the spec: a `PrimitiveIoPin` designates one hardware
line by a stable integer id, with a distinguished null value (`none`);
its declaring platform header is not among the sources.  All operations
on null are no-ops and a read of null returns the idle level `false`. -/
abbrev PrimitiveIoPin := Option Nat

/-- Modelled from the spec: `PrimitiveIoPin::isNull`. -/
def primIsNull (p : PrimitiveIoPin) : Bool := p.isNone

/-- Modelled from the spec: `PrimitiveIoPin::makeDigitalOutput(lev)`
makes the line an output at `lev`; a no-op on the null pin. -/
def primMakeDigitalOutput (p : PrimitiveIoPin) (lev : Bool)
    (hw : Hardware) : Hardware :=
  match p with
  | none => hw
  | some n => fun m => if m = n then ⟨PinMode.output, lev⟩ else hw m

/-- Modelled from the spec: `PrimitiveIoPin::makeDigitalInput()` makes
the line an input (its stored level is untouched); a no-op on null. -/
def primMakeDigitalInput (p : PrimitiveIoPin) (hw : Hardware) : Hardware :=
  match p with
  | none => hw
  | some n => fun m => if m = n then ⟨PinMode.input, (hw n).level⟩ else hw m

/-- Modelled from the spec: `PrimitiveIoPin::digitalRead()`; the null pin
returns the idle level `false`. -/
def primDigitalRead (p : PrimitiveIoPin) (hw : Hardware) : Bool :=
  match p with
  | none => false
  | some n => (hw n).level

/-- Modelled from the spec: `PrimitiveIoPin::digitalWrite(lev)` sets the
line's level; a no-op on null. -/
def primDigitalWrite (p : PrimitiveIoPin) (lev : Bool)
    (hw : Hardware) : Hardware :=
  match p with
  | none => hw
  | some n => fun m => if m = n then ⟨(hw n).mode, lev⟩ else hw m

/-- The per-object state of `class IoPin`: the owned primitive pin and
the `_invertReads` / `_invertWrites` / `_defaultState` members. -/
structure IoPin where
  _pin : PrimitiveIoPin
  _invertReads : Bool
  _invertWrites : Bool
  _defaultState : DefaultIoState
deriving DecidableEq

/-- `IoPin::isNull()` from iopin.cpp. -/
def IoPin.isNull (p : IoPin) : Bool := primIsNull p._pin

/-- `IoPin::translateWriteToPrimitive(lev)` from iopin.cpp:
`_invertWrites ? !lev : lev`. -/
def IoPin.translateWriteToPrimitive (p : IoPin) (lev : Bool) : Bool :=
  if p._invertWrites then !lev else lev

/-- `IoPin::translateDutyCycleToPrimitive(pwm)` from iopin.cpp:
`_invertWrites ? 1-pwm : pwm`; the C `float` is embedded as `ℚ`. -/
def IoPin.translateDutyCycleToPrimitive (p : IoPin) (pwm : ℚ) : ℚ :=
  if p._invertWrites then 1 - pwm else pwm

/-- `IoPin::makeDigitalOutput(lev)` from iopin.cpp: relay to the
primitive pin with the write translated. -/
def IoPin.makeDigitalOutput (p : IoPin) (lev : Bool)
    (hw : Hardware) : Hardware :=
  primMakeDigitalOutput p._pin (p.translateWriteToPrimitive lev) hw

/-- `IoPin::makeDigitalInput()` from iopin.cpp. -/
def IoPin.makeDigitalInput (p : IoPin) (hw : Hardware) : Hardware :=
  primMakeDigitalInput p._pin hw

/-- `IoPin::digitalRead()` from iopin.cpp:
`_invertReads ? !_pin.digitalRead() : _pin.digitalRead()`. -/
def IoPin.digitalRead (p : IoPin) (hw : Hardware) : Bool :=
  if p._invertReads then !(primDigitalRead p._pin hw)
  else primDigitalRead p._pin hw

/-- `IoPin::digitalWrite(lev)` from iopin.cpp. -/
def IoPin.digitalWrite (p : IoPin) (lev : Bool) (hw : Hardware) : Hardware :=
  primDigitalWrite p._pin (p.translateWriteToPrimitive lev) hw

/-- `IoPin::setToDefault()` from iopin.cpp: if the pin is not null,
drive it per `_defaultState`; any other default value (and the null pin)
leaves the hardware untouched. -/
def IoPin.setToDefault (p : IoPin) (hw : Hardware) : Hardware :=
  if primIsNull p._pin then hw
  else if p._defaultState = .ioDefaultLow then p.makeDigitalOutput IoLow hw
  else if p._defaultState = .ioDefaultHigh then p.makeDigitalOutput IoHigh hw
  else if p._defaultState = .ioDefaultHighImpedance then p.makeDigitalInput hw
  else hw

/-- The process-wide picture: a heap of `IoPin` objects addressed by
object id, the static `IoPin::livingPins` registry (a set of object ids,
kept duplicate-free like `std::set`), and the hardware state. -/
structure PinWorld where
  pins : Nat → IoPin
  livingPins : List Nat
  hw : Hardware

/-- `IoPin::deactivateAll()` from iopin.cpp: iterate `livingPins`
calling `setToDefault` on each pin. -/
def deactivateAll (w : PinWorld) : PinWorld :=
  { w with hw := w.livingPins.foldl (fun h i => (w.pins i).setToDefault h) w.hw }

/-- `IoPin::~IoPin()` from iopin.cpp: call `setToDefault`, then erase
the object from `livingPins`. -/
def IoPin.destruct (i : Nat) (w : PinWorld) : PinWorld :=
  { w with
    hw := (w.pins i).setToDefault w.hw
    livingPins := w.livingPins.erase i }

/-- Set-style insertion into the registry (`std::set::insert`). -/
def registryInsert (i : Nat) (l : List Nat) : List Nat :=
  if i ∈ l then l else i :: l

/-- `IoPin::operator=(IoPin&&)` from iopin.cpp: copy the inversion
flags, default state and primitive pin from `other` into `self`, null
`other`'s primitive pin (`IoPin::null::ref()._pin`), then insert `self`
into the registry and erase `other`. -/
def IoPin.moveAssign (self other : Nat) (w : PinWorld) : PinWorld :=
  { w with
    pins := fun j =>
      if j = other then { w.pins other with _pin := none }
      else if j = self then w.pins other
      else w.pins j
    livingPins := (registryInsert self w.livingPins).erase other }

/-- `IoPin::IoPin(IoPin&&)` from iopin.cpp: initialize `_pin` to the
null primitive pin, then delegate to the move assignment. -/
def IoPin.moveConstruct (self other : Nat) (w : PinWorld) : PinWorld :=
  IoPin.moveAssign self other
    { w with
      pins := fun j =>
        if j = self then { w.pins j with _pin := none } else w.pins j }

/-- A concrete all-inputs-low hardware state, for witnesses. -/
def hwZero : Hardware := fun _ => ⟨PinMode.input, false⟩

/-- A concrete pin heap: object 1 owns line 7 with inverted reads and a
high default; every other object is null. -/
def pinsEx : Nat → IoPin := fun j =>
  if j = 1 then ⟨some 7, true, false, .ioDefaultHigh⟩
  else ⟨none, false, false, .ioDefaultNone⟩

/-- A concrete world around `pinsEx` with only object 1 living. -/
def wMoveEx : PinWorld := ⟨pinsEx, [1], hwZero⟩

/-- A concrete pin heap where every object has the no-default state. -/
def pinsNoneEx : Nat → IoPin := fun _ => ⟨some 4, false, false, .ioDefaultNone⟩

/-- A concrete world around `pinsNoneEx` with one living pin. -/
def wNoneEx : PinWorld := ⟨pinsNoneEx, [0], hwZero⟩

/-- A concrete pin heap: object 0 owns line 5 (default low), object 1
owns line 6 (default high, inverted writes). -/
def pinsC1 : Nat → IoPin := fun j =>
  if j = 0 then ⟨some 5, false, false, .ioDefaultLow⟩
  else if j = 1 then ⟨some 6, false, true, .ioDefaultHigh⟩
  else ⟨none, false, false, .ioDefaultNone⟩

/-- A concrete world around `pinsC1` with objects 0 and 1 living. -/
def wC1 : PinWorld := ⟨pinsC1, [0, 1], hwZero⟩

/-! ## Kossel delta configuration (`kosselpi.h`) -/

/-- `#define R1000 111000` from kosselpi.h (micrometers). -/
def R1000 : Nat := 111000

/-- `#define L1000 221000` from kosselpi.h (micrometers). -/
def L1000 : Nat := 221000

/-- `#define H1000 467330` from kosselpi.h (micrometers). -/
def H1000 : Nat := 467330

/-- `#define BUILDRAD1000 85000` from kosselpi.h (micrometers). -/
def BUILDRAD1000 : Nat := 85000

/-- `#define STEPS_M 6265*4` from kosselpi.h. -/
def STEPS_M : Nat := 6265 * 4

/-- `#define MAX_MOVE_RATE 50` from kosselpi.h (mm/s); the C `float` is
embedded as `ℚ`. -/
def MAX_MOVE_RATE : ℚ := 50

/-- `#define HOME_RATE 10` from kosselpi.h (mm/s). -/
def HOME_RATE : ℚ := 10

/-- `KosselPi::defaultMoveRate()` from kosselpi.h: returns
`MAX_MOVE_RATE`. -/
def defaultMoveRate : ℚ := MAX_MOVE_RATE

/-- `KosselPi::clampMoveRate(inp)` from kosselpi.h:
`std::min(inp, defaultMoveRate())`. -/
def clampMoveRate (inp : ℚ) : ℚ := min inp defaultMoveRate

/-- `KosselPi::clampHomeRate(inp)` from kosselpi.h: ignores its argument
and returns `HOME_RATE`. -/
def clampHomeRate (_ : ℚ) : ℚ := HOME_RATE

/-- Modelled from the spec: the linear-delta forward kinematics of
`LinearDeltaCoordMap` (its header is not among the sources).  The A
tower at angle 90 degrees sits at `(0, R)` in the XY plane, and with the
identity bed-level transform the carriage height for an effector at
`(x, y, z)` micrometers is `z + sqrt(L^2 - x^2 - (y - R)^2)` (integer
square root, micrometers). -/
def carriageHeightA (x y z : ℤ) : ℤ :=
  z + Int.sqrt ((L1000 : ℤ) ^ 2 - x ^ 2 - (y - (R1000 : ℤ)) ^ 2)

/-- Modelled from the spec: the carriage step count
`round(h * steps_per_m)` with `h` in micrometers, i.e. the nearest
integer to `h * STEPS_M / 1000000`, written as a floor of the
half-up-shifted quotient. -/
def stepsOfHeight (h : ℤ) : ℤ :=
  (2 * h * (STEPS_M : ℤ) + 1000000) / 2000000

/-! ## Theorems on the DMA code -/

/-- Bit `i` of the 32-bit all-ones constant is set exactly for `i < 32`. -/
theorem testBit_UINT32_MASK (i : Nat) :
    UINT32_MASK.testBit i = decide (i < 32) := by
  rw [UINT32_MASK]
  exact Nat.testBit_two_pow_sub_one 32 i

/-- C9: after `writeBitmasked(dest, mask, value)` the register holds
`(cur & ~mask) | (value & mask)` bit by bit — every bit where `mask` is 0
keeps `cur`'s bit, every bit where `mask` is 1 takes `value`'s bit — and
repeating the identical call leaves the register unchanged. -/
theorem writeBitmasked_spec (cur mask value : Nat)
    (hc : cur < 2 ^ 32) (hm : mask < 2 ^ 32) :
    (∀ i, mask.testBit i = false →
      (writeBitmasked cur mask value).testBit i = cur.testBit i) ∧
    (∀ i, mask.testBit i = true →
      (writeBitmasked cur mask value).testBit i = value.testBit i) ∧
    writeBitmasked (writeBitmasked cur mask value) mask value =
      writeBitmasked cur mask value := by
  refine ⟨?_, ?_, ?_⟩
  · intro i hmi
    by_cases hi : i < 32
    · simp [writeBitmasked, Nat.testBit_lor, Nat.testBit_land,
        Nat.testBit_xor, testBit_UINT32_MASK, hi, hmi]
    · have hci : cur.testBit i = false :=
        Nat.testBit_eq_false_of_lt (lt_of_lt_of_le hc
          (Nat.pow_le_pow_right (by norm_num) (le_of_not_lt hi)))
      simp [writeBitmasked, Nat.testBit_lor, Nat.testBit_land,
        Nat.testBit_xor, testBit_UINT32_MASK, hi, hmi, hci]
  · intro i hmi
    have hi : i < 32 := by
      by_contra hge
      have : mask.testBit i = false :=
        Nat.testBit_eq_false_of_lt (lt_of_lt_of_le hm
          (Nat.pow_le_pow_right (by norm_num) (le_of_not_lt hge)))
      simp [this] at hmi
    simp [writeBitmasked, Nat.testBit_lor, Nat.testBit_land,
      Nat.testBit_xor, testBit_UINT32_MASK, hi, hmi]
  · apply Nat.eq_of_testBit_eq
    intro i
    simp only [writeBitmasked, Nat.testBit_lor, Nat.testBit_land]
    cases cur.testBit i <;> cases value.testBit i <;>
      cases (UINT32_MASK ^^^ mask).testBit i <;> cases mask.testBit i <;> rfl

/-- Witness for C9 at the example of the comment above `writeBitmasked`:
`x = 0b11001100`, `mask = 0b00000110`, `value = 0b11110011`. -/
theorem writeBitmasked_spec_witness :
    (writeBitmasked 0xCC 0x06 0xF3).testBit 3 = (0xCC : Nat).testBit 3 ∧
    (writeBitmasked 0xCC 0x06 0xF3).testBit 1 = (0xF3 : Nat).testBit 1 := by
  have h := writeBitmasked_spec 0xCC 0x06 0xF3 (by norm_num) (by norm_num)
  exact ⟨h.1 3 (by decide), h.2.1 1 (by decide)⟩

/-- C3 counterexample: the control block written by `main` (at any source
page address, here 4096) has `TXFR_LEN = 24`, not 8; its `TI` is not
`SRC_INC | DEST_DREQ | PERMAP(PWM) | NO_WIDE_BURSTS`; and its `NEXTCONBK`
is 0 — the chain ends instead of closing a ring. -/
theorem cb1_not_as_claimed :
    (cb1Setup 4096).TXFR_LEN ≠ 8 ∧
    (cb1Setup 4096).TI ≠
      (DMA_CB_TI_SRC_INC ||| DMA_CB_TI_DEST_DREQ |||
        DMA_CB_TI_PERMAP_PWM ||| DMA_CB_TI_NO_WIDE_BURSTS) ∧
    (cb1Setup 4096).NEXTCONBK = 0 := by
  refine ⟨by decide, ?_, by decide⟩
  decide

/-- C3 amended: the single control block is configured with
`TI = SRC_INC | DEST_INC | NO_WIDE_BURSTS` (value `0x4000110`: no DREQ
pacing, no peripheral map), a transfer length of 24 bytes starting at the
bus address of GPSET0 (`0x7E20001C`), and `NEXTCONBK = 0`, so the chain
ends after this one block and no ring is built. -/
theorem cb1_config (physSrcPage : Nat) :
    (cb1Setup physSrcPage).TI = 0x4000110 ∧
    (cb1Setup physSrcPage).TXFR_LEN = 24 ∧
    (cb1Setup physSrcPage).DEST_AD = 0x7E20001C ∧
    (cb1Setup physSrcPage).SOURCE_AD = physSrcPage ∧
    (cb1Setup physSrcPage).NEXTCONBK = 0 := by
  refine ⟨rfl, rfl, rfl, rfl, rfl⟩

/-- C8 counterexample: when every operation succeeds except the pagemap
read, the process still exits with code 0 — `main` never checks the
`read` result — contradicting the claimed non-zero exit on pagemap
failure. -/
theorem dmaMain_pagemap_failure_exits_zero :
    dmaMain ⟨true, true, true, true, false, true⟩ = .exited 0 := by decide

/-- C8 amended: the process exits 0 on clean shutdown; it exits 1 when
opening `/dev/mem` fails or when mapping any of the three peripheral
pages fails; a pagemap read failure is not detected (exit 0 if the rest
succeeds), and a DMA transfer that never completes makes the process
spin forever rather than exit non-zero. -/
theorem dmaMain_exit_codes (e : SyscallEnv) :
    (e.openDevMemOk = false → dmaMain e = .exited 1) ∧
    (e.openDevMemOk = true →
      (e.mapGpioOk = false ∨ e.mapDmaOk = false ∨ e.mapTimerOk = false) →
      dmaMain e = .exited 1) ∧
    (e.openDevMemOk = true → e.mapGpioOk = true → e.mapDmaOk = true →
      e.mapTimerOk = true → e.dmaCompletes = true →
      dmaMain e = .exited 0) ∧
    (e.openDevMemOk = true → e.mapGpioOk = true → e.mapDmaOk = true →
      e.mapTimerOk = true → e.dmaCompletes = false →
      dmaMain e = .hangs) := by
  obtain ⟨a, b, c, d, p, q⟩ := e
  cases a <;> cases b <;> cases c <;> cases d <;> cases q <;>
    simp [dmaMain]

/-- Witness for the amended C8 exit-code theorem on concrete
environments. -/
theorem dmaMain_exit_codes_witness :
    dmaMain ⟨false, true, true, true, true, true⟩ = .exited 1 ∧
    dmaMain ⟨true, false, true, true, true, true⟩ = .exited 1 ∧
    dmaMain ⟨true, true, true, true, true, true⟩ = .exited 0 := by
  refine ⟨(dmaMain_exit_codes _).1 rfl, ?_, ?_⟩
  · exact (dmaMain_exit_codes _).2.1 rfl (Or.inl rfl)
  · exact (dmaMain_exit_codes _).2.2.1 rfl rfl rfl rfl rfl

/-! ## Theorems on the I/O pin abstraction -/

/-- C2: `translateWriteToPrimitive` negates exactly when `_invertWrites`
is set, `translateDutyCycleToPrimitive` maps `d` to `1 - d` exactly when
`_invertWrites` is set, and `digitalRead` negates the primitive read
exactly when `_invertReads` is set; hence an INVERT_READS-only pin
leaves writes and duty cycles unchanged, an INVERT_WRITES-only pin
leaves reads unchanged, and a pin with both flags applies both
inversions. -/
theorem iopin_inversion (p : IoPin) (lev : Bool) (d : ℚ) (hw : Hardware) :
    (p._invertWrites = true → p.translateWriteToPrimitive lev = !lev ∧
      p.translateDutyCycleToPrimitive d = 1 - d) ∧
    (p._invertWrites = false → p.translateWriteToPrimitive lev = lev ∧
      p.translateDutyCycleToPrimitive d = d) ∧
    (p._invertReads = true →
      p.digitalRead hw = !(primDigitalRead p._pin hw)) ∧
    (p._invertReads = false →
      p.digitalRead hw = primDigitalRead p._pin hw) := by
  refine ⟨fun h => ?_, fun h => ?_, fun h => ?_, fun h => ?_⟩ <;>
    simp [IoPin.translateWriteToPrimitive,
      IoPin.translateDutyCycleToPrimitive, IoPin.digitalRead, h]

/-- Witness for C2 at the test-suite inputs: an INVERT_READS-only pin
leaves a low write and a 0.2 duty cycle unchanged; an INVERT_WRITES-only
pin maps a low write to high and a 0.2 duty cycle to 0.8. -/
theorem iopin_inversion_witness :
    IoPin.translateWriteToPrimitive ⟨none, true, false, .ioDefaultNone⟩ IoLow
      = IoLow ∧
    IoPin.translateDutyCycleToPrimitive ⟨none, true, false, .ioDefaultNone⟩
      (1 / 5) = 1 / 5 ∧
    IoPin.translateWriteToPrimitive ⟨none, false, true, .ioDefaultNone⟩ IoLow
      = IoHigh ∧
    IoPin.translateDutyCycleToPrimitive ⟨none, false, true, .ioDefaultNone⟩
      (1 / 5) = 4 / 5 := by
  have hr := iopin_inversion ⟨none, true, false, .ioDefaultNone⟩ IoLow
    (1 / 5) hwZero
  have hv := iopin_inversion ⟨none, false, true, .ioDefaultNone⟩ IoLow
    (1 / 5) hwZero
  obtain ⟨hA, hB⟩ := hr.2.1 rfl
  obtain ⟨hC, hD⟩ := hv.1 rfl
  refine ⟨hA, hB, ?_, ?_⟩
  · rw [hC]; rfl
  · rw [hD]; norm_num

/-- C5: for an `IoPin` whose primitive pin is null, `isNull()` returns
true, every mutating operation (`digitalWrite`, `makeDigitalOutput`,
`makeDigitalInput`, `setToDefault`) leaves the hardware untouched, and
`digitalRead` returns the defined idle level (`false`, negated by the
read-inversion flag). -/
theorem iopin_null_ops (p : IoPin) (hw : Hardware) (lev : Bool)
    (h : p._pin = none) :
    p.isNull = true ∧
    p.digitalWrite lev hw = hw ∧
    p.makeDigitalOutput lev hw = hw ∧
    p.makeDigitalInput hw = hw ∧
    p.setToDefault hw = hw ∧
    p.digitalRead hw = p._invertReads := by
  refine ⟨?_, ?_, ?_, ?_, ?_, ?_⟩ <;>
    simp [IoPin.isNull, primIsNull, IoPin.digitalWrite, primDigitalWrite,
      IoPin.makeDigitalOutput, primMakeDigitalOutput, IoPin.makeDigitalInput,
      primMakeDigitalInput, IoPin.setToDefault, IoPin.digitalRead,
      primDigitalRead, h]

/-- Witness for C5 on a concrete null pin and hardware state. -/
theorem iopin_null_ops_witness :
    IoPin.isNull ⟨none, false, false, .ioDefaultLow⟩ = true ∧
    IoPin.digitalWrite ⟨none, false, false, .ioDefaultLow⟩ true hwZero
      = hwZero ∧
    IoPin.setToDefault ⟨none, false, false, .ioDefaultLow⟩ hwZero = hwZero ∧
    IoPin.digitalRead ⟨none, false, false, .ioDefaultLow⟩ hwZero = false := by
  have h := iopin_null_ops ⟨none, false, false, .ioDefaultLow⟩ hwZero true rfl
  exact ⟨h.1, h.2.1, h.2.2.2.2.1, h.2.2.2.2.2⟩

/-- Helper: `setToDefault` on a pin whose default state is the
fall-through value returns the hardware unchanged. -/
theorem setToDefault_of_defaultNone (p : IoPin) (hw : Hardware)
    (hd : p._defaultState = .ioDefaultNone) : p.setToDefault hw = hw := by
  simp [IoPin.setToDefault, hd]

/-- Helper: folding `setToDefault` over pins that all have the
fall-through default leaves the hardware unchanged. -/
theorem foldl_setToDefault_none (pins : Nat → IoPin) (l : List Nat)
    (hw : Hardware)
    (h : ∀ j ∈ l, (pins j)._defaultState = .ioDefaultNone) :
    l.foldl (fun h2 j => (pins j).setToDefault h2) hw = hw := by
  induction l generalizing hw with
  | nil => rfl
  | cons a t ih =>
      rw [List.foldl_cons,
        setToDefault_of_defaultNone _ _ (h a (List.mem_cons_self a t))]
      exact ih hw (fun j hj => h j (List.mem_cons_of_mem a hj))

/-- C10: a non-null `IoPin` whose default state is none of LOW, HIGH or
HIGH_IMPEDANCE performs no primitive-pin operation on `setToDefault`:
the hardware is returned unchanged; consequently its destruction leaves
the hardware unchanged, and `deactivateAll` over a registry of such pins
leaves the hardware unchanged. -/
theorem iopin_defaultNone_frame (p : IoPin) (hw : Hardware) (i : Nat)
    (w : PinWorld) (n : Nat) (hp : p._pin = some n)
    (hd : p._defaultState = .ioDefaultNone) :
    p.setToDefault hw = hw ∧
    (w.pins i = p → (IoPin.destruct i w).hw = w.hw) ∧
    ((∀ j ∈ w.livingPins, (w.pins j)._defaultState = .ioDefaultNone) →
      (deactivateAll w).hw = w.hw) := by
  refine ⟨setToDefault_of_defaultNone p hw hd, fun hwp => ?_, fun hall => ?_⟩
  · show (w.pins i).setToDefault w.hw = w.hw
    rw [hwp]
    exact setToDefault_of_defaultNone p w.hw hd
  · exact foldl_setToDefault_none w.pins w.livingPins w.hw hall

/-- Witness for C10 on a concrete non-null pin with the fall-through
default and a concrete one-pin world. -/
theorem iopin_defaultNone_frame_witness :
    IoPin.setToDefault ⟨some 4, false, false, .ioDefaultNone⟩ hwZero
      = hwZero ∧
    (IoPin.destruct 0 wNoneEx).hw = wNoneEx.hw ∧
    (deactivateAll wNoneEx).hw = wNoneEx.hw := by
  have h := iopin_defaultNone_frame ⟨some 4, false, false, .ioDefaultNone⟩
    hwZero 0 wNoneEx 4 rfl rfl
  exact ⟨h.1, h.2.1 rfl, h.2.2 (by decide)⟩

/-- Helper: `setToDefault` never touches a line other than the pin's
own. -/
theorem setToDefault_frame (p : IoPin) (hw : Hardware) (m : Nat)
    (h : p._pin ≠ some m) : (p.setToDefault hw) m = hw m := by
  rcases hp : p._pin with _ | n
  · simp [IoPin.setToDefault, primIsNull, hp]
  · have hnm : m ≠ n := fun he => h (by rw [hp, he])
    simp only [IoPin.setToDefault, IoPin.makeDigitalOutput,
      IoPin.makeDigitalInput, primMakeDigitalOutput, primMakeDigitalInput,
      primIsNull, hp]
    rcases p._defaultState <;> simp [hnm]

/-- Helper: folding `setToDefault` over pins that all live on lines
other than `n` leaves line `n` unchanged. -/
theorem foldl_setToDefault_frame (pins : Nat → IoPin) (l : List Nat)
    (hw : Hardware) (n : Nat)
    (h : ∀ j ∈ l, (pins j)._pin ≠ some n) :
    (l.foldl (fun h2 j => (pins j).setToDefault h2) hw) n = hw n := by
  induction l generalizing hw with
  | nil => rfl
  | cons a t ih =>
      rw [List.foldl_cons,
        ih _ (fun j hj => h j (List.mem_cons_of_mem a hj))]
      exact setToDefault_frame _ _ _ (h a (List.mem_cons_self a t))

/-- Helper: the value `setToDefault` leaves on the pin's own line, by
default state. -/
theorem setToDefault_at_own_line (p : IoPin) (hw : Hardware) (n : Nat)
    (h : p._pin = some n) :
    (p.setToDefault hw) n =
      (if p._defaultState = .ioDefaultLow then
        LineState.mk PinMode.output (p.translateWriteToPrimitive IoLow)
      else if p._defaultState = .ioDefaultHigh then
        LineState.mk PinMode.output (p.translateWriteToPrimitive IoHigh)
      else if p._defaultState = .ioDefaultHighImpedance then
        LineState.mk PinMode.input (hw n).level
      else hw n) := by
  simp only [IoPin.setToDefault, IoPin.makeDigitalOutput,
    IoPin.makeDigitalInput, primMakeDigitalOutput, primMakeDigitalInput,
    primIsNull, h]
  rcases p._defaultState <;> simp

/-- C1: `deactivateAll` iterates the living-pin registry calling
`setToDefault` on each pin, so when live pins occupy distinct lines,
every live non-null pin's line ends in its configured default: digital
output at (translated) low for default LOW, digital output at
(translated) high for default HIGH, digital input for default
HIGH_IMPEDANCE.  The destructor drives the pin to its default via
`setToDefault` and erases it from the registry. -/
theorem deactivateAll_drives_defaults (w : PinWorld) (i n : Nat)
    (hi : i ∈ w.livingPins) (hnd : w.livingPins.Nodup)
    (hn : (w.pins i)._pin = some n)
    (huniq : ∀ j ∈ w.livingPins, j ≠ i → (w.pins j)._pin ≠ some n) :
    (((w.pins i)._defaultState = .ioDefaultLow →
        (deactivateAll w).hw n =
          ⟨PinMode.output, (w.pins i).translateWriteToPrimitive IoLow⟩) ∧
     ((w.pins i)._defaultState = .ioDefaultHigh →
        (deactivateAll w).hw n =
          ⟨PinMode.output, (w.pins i).translateWriteToPrimitive IoHigh⟩) ∧
     ((w.pins i)._defaultState = .ioDefaultHighImpedance →
        (deactivateAll w).hw n = ⟨PinMode.input, (w.hw n).level⟩)) ∧
    (IoPin.destruct i w).hw = (w.pins i).setToDefault w.hw ∧
    i ∉ (IoPin.destruct i w).livingPins := by
  obtain ⟨l1, l2, hsplit⟩ := List.append_of_mem hi
  have hnd' : (l1 ++ i :: l2).Nodup := hsplit ▸ hnd
  have hd1 := List.nodup_append.mp hnd'
  have hil1 : i ∉ l1 := fun hmem =>
    hd1.2.2 hmem (List.mem_cons_self i l2)
  have hil2 : i ∉ l2 := (List.nodup_cons.mp hd1.2.1).1
  have hmem1 : ∀ j ∈ l1, j ∈ w.livingPins := fun j hj =>
    hsplit ▸ List.mem_append_left _ hj
  have hmem2 : ∀ j ∈ l2, j ∈ w.livingPins := fun j hj =>
    hsplit ▸ List.mem_append_right _ (List.mem_cons_of_mem i hj)
  have hfr1 : ∀ j ∈ l1, (w.pins j)._pin ≠ some n := fun j hj =>
    huniq j (hmem1 j hj) (fun he => hil1 (he ▸ hj))
  have hfr2 : ∀ j ∈ l2, (w.pins j)._pin ≠ some n := fun j hj =>
    huniq j (hmem2 j hj) (fun he => hil2 (he ▸ hj))
  have hmain : (deactivateAll w).hw n =
      ((w.pins i).setToDefault
        (l1.foldl (fun h2 j => (w.pins j).setToDefault h2) w.hw)) n := by
    show (w.livingPins.foldl
      (fun h2 j => (w.pins j).setToDefault h2) w.hw) n = _
    rw [hsplit, List.foldl_append, List.foldl_cons]
    exact foldl_setToDefault_frame w.pins l2 _ n hfr2
  have hmid : (l1.foldl (fun h2 j => (w.pins j).setToDefault h2) w.hw) n
      = w.hw n := foldl_setToDefault_frame w.pins l1 w.hw n hfr1
  rw [setToDefault_at_own_line (w.pins i) _ n hn, hmid] at hmain
  refine ⟨⟨fun hd => ?_, fun hd => ?_, fun hd => ?_⟩, rfl,
    hnd.not_mem_erase⟩
  · rw [hmain]; simp [hd]
  · rw [hmain]; simp [hd]
  · rw [hmain]; simp [hd]

/-- Witness for C1 on the concrete two-pin world `wC1`: after
`deactivateAll`, line 5 (object 0, default LOW, no inversion) is an
output at low and line 6 (object 1, default HIGH, inverted writes) is an
output at the translated high, i.e. low; the destructor removes object 0
from the registry. -/
theorem deactivateAll_drives_defaults_witness :
    (deactivateAll wC1).hw 5 = ⟨PinMode.output, false⟩ ∧
    (deactivateAll wC1).hw 6 = ⟨PinMode.output, false⟩ ∧
    0 ∉ (IoPin.destruct 0 wC1).livingPins := by
  have h0 := deactivateAll_drives_defaults wC1 0 5 (by decide) (by decide)
    rfl (by decide)
  have h1 := deactivateAll_drives_defaults wC1 1 6 (by decide) (by decide)
    rfl (by decide)
  refine ⟨?_, ?_, h0.2.2⟩
  · rw [h0.1.1 rfl]; rfl
  · rw [h1.1.2.1 rfl]; rfl

/-- C4: move assignment transfers ownership: the destination object
becomes an exact copy of the source (primitive pin, both inversion
flags, default state), joins the living-pin registry, while the source
becomes null and leaves the registry; the move constructor (which
initializes to null and delegates to move assignment) does the same. -/
theorem iopin_move_transfers (self other : Nat) (w : PinWorld)
    (hne : self ≠ other) (hnd : w.livingPins.Nodup) :
    (IoPin.moveAssign self other w).pins self = w.pins other ∧
    self ∈ (IoPin.moveAssign self other w).livingPins ∧
    ((IoPin.moveAssign self other w).pins other).isNull = true ∧
    other ∉ (IoPin.moveAssign self other w).livingPins ∧
    (IoPin.moveConstruct self other w).pins self = w.pins other ∧
    ((IoPin.moveConstruct self other w).pins other).isNull = true ∧
    self ∈ (IoPin.moveConstruct self other w).livingPins ∧
    other ∉ (IoPin.moveConstruct self other w).livingPins := by
  have hself_mem : ∀ l : List Nat, self ∈ registryInsert self l := by
    intro l
    rw [registryInsert]
    by_cases hmem : self ∈ l
    · simp [hmem]
    · simp [hmem]
  have hins_nodup : (registryInsert self w.livingPins).Nodup := by
    rw [registryInsert]
    by_cases hmem : self ∈ w.livingPins
    · simpa [hmem] using hnd
    · simpa [hmem] using hnd
  have hmem_assign : self ∈ (IoPin.moveAssign self other w).livingPins :=
    (List.mem_erase_of_ne hne).mpr (hself_mem w.livingPins)
  have hnot_assign : other ∉ (IoPin.moveAssign self other w).livingPins :=
    hins_nodup.not_mem_erase
  refine ⟨?_, hmem_assign, ?_, hnot_assign, ?_, ?_, hmem_assign,
    hnot_assign⟩
  · simp [IoPin.moveAssign, hne]
  · simp [IoPin.moveAssign, IoPin.isNull, primIsNull]
  · simp [IoPin.moveConstruct, IoPin.moveAssign, hne, Ne.symm hne]
  · simp [IoPin.moveConstruct, IoPin.moveAssign, IoPin.isNull, primIsNull]

/-- Witness for C4 moving object 1 (line 7, inverted reads, default
HIGH) of `wMoveEx` into fresh object 2. -/
theorem iopin_move_transfers_witness :
    (IoPin.moveAssign 2 1 wMoveEx).pins 2
      = ⟨some 7, true, false, .ioDefaultHigh⟩ ∧
    2 ∈ (IoPin.moveAssign 2 1 wMoveEx).livingPins ∧
    ((IoPin.moveAssign 2 1 wMoveEx).pins 1).isNull = true ∧
    1 ∉ (IoPin.moveAssign 2 1 wMoveEx).livingPins := by
  have h := iopin_move_transfers 2 1 wMoveEx (by decide) (by decide)
  exact ⟨h.1.trans rfl, h.2.1, h.2.2.1, h.2.2.2.1⟩

/-! ## Theorems on the Kossel configuration -/

/-- C6: the reference delta configuration satisfies the geometry
invariants (`R`, `L`, `H` positive, `build_radius ≤ R`,
`L^2 ≥ (R - build_radius)^2`), `STEPS_M` evaluates to 25060, and under
the identity bed-level transform the home carriage height at the origin
is `sqrt(L^2 - R^2)` = 191102 µm to the micrometer — within 10 µm of the
quoted 191094 — which rounds to 4789 steps, the same step count as the
quoted `round(0.191094 * 25060)`. -/
theorem kossel_geometry :
    0 < R1000 ∧ 0 < L1000 ∧ 0 < H1000 ∧
    BUILDRAD1000 ≤ R1000 ∧
    (R1000 - BUILDRAD1000) ^ 2 ≤ L1000 ^ 2 ∧
    STEPS_M = 25060 ∧
    carriageHeightA 0 0 0 = 191102 ∧
    (carriageHeightA 0 0 0 - 191094).natAbs ≤ 10 ∧
    stepsOfHeight (carriageHeightA 0 0 0) = 4789 ∧
    stepsOfHeight 191094 = 4789 := by
  have hsq : Nat.sqrt 36520000000 = 191102 := by
    have h1 : 191102 ≤ Nat.sqrt 36520000000 := Nat.le_sqrt.mpr (by norm_num)
    have h2 : Nat.sqrt 36520000000 < 191103 := Nat.sqrt_lt.mpr (by norm_num)
    omega
  have harg : ((L1000 : ℤ) ^ 2 - 0 ^ 2 - (0 - (R1000 : ℤ)) ^ 2)
      = 36520000000 := by
    norm_num [L1000, R1000]
  have hh : carriageHeightA 0 0 0 = 191102 := by
    rw [carriageHeightA, harg, Int.sqrt,
      show Int.toNat 36520000000 = 36520000000 from rfl, hsq]
    norm_num
  refine ⟨by norm_num [R1000], by norm_num [L1000], by norm_num [H1000],
    by norm_num [BUILDRAD1000, R1000],
    by norm_num [BUILDRAD1000, R1000, L1000],
    by norm_num [STEPS_M], hh, by rw [hh]; norm_num, ?_, by decide⟩
  rw [hh]
  decide

/-- C7: `clampMoveRate(f)` is `min(f, 50)` — never above the 50 mm/s
`MAX_MOVE_RATE` and equal to `f` whenever `f ≤ 50` — and
`clampHomeRate(f)` is the constant 10 mm/s `HOME_RATE` for every
input. -/
theorem kossel_clamp_rates (f : ℚ) :
    clampMoveRate f = min f 50 ∧
    clampMoveRate f ≤ 50 ∧
    (f ≤ 50 → clampMoveRate f = f) ∧
    (50 ≤ f → clampMoveRate f = 50) ∧
    clampHomeRate f = 10 := by
  refine ⟨rfl, min_le_right f 50, fun h => min_eq_left h,
    fun h => min_eq_right h, rfl⟩

/-- Witness for C7 at the feedrates 30 (below the cap), 60 (above the
cap) and 77 (homing). -/
theorem kossel_clamp_rates_witness :
    clampMoveRate 30 = 30 ∧ clampMoveRate 60 ≤ 50 ∧
    clampHomeRate 77 = 10 := by
  exact ⟨(kossel_clamp_rates 30).2.2.1 (by norm_num),
    (kossel_clamp_rates 60).2.1, (kossel_clamp_rates 77).2.2.2.2⟩
